import Mathlib

/-!
Verification of the MCP protocol core of the skyfi-mcp repository.

This file gives a shallow embedding of the protocol state machine and
transport layer of the repository (`src/server/protocol.ts`,
`src/server/mcp-server.ts`, `src/server/transport.ts`) and proves the
spec-level properties about it.

Modelling conventions:
- JSON values are modelled by the inductive type `Json`; a request body
  that arrived over the wire is modelled by its parsed JSON tree
  (`JSON.parse` / `JSON.stringify` are the text layer and are modelled
  structurally).  JSON numbers are modelled as integers: every numeric
  value the core manipulates (ids, error codes) is integral.
- zod schema checks (`baseRequestSchema`, `initializeRequestSchema`,
  `toolsListRequestSchema`, `toolsCallRequestSchema`) become boolean
  validators written directly from the schema declarations.
- `Date` timestamps on the request/response path are passed in as the
  already-rendered ISO string (`new Date().toISOString()`);
  SSE activity timestamps (`Date.getTime()`) are integers (epoch ms).
- Thrown `Error` objects carrying a numeric `code` become the `MCPError`
  structure; the `data` attachment (zod issue list / stack trace) is not
  modelled, as no verified property inspects it.
-/

namespace SkyFi

/-- JSON value tree: the result of `JSON.parse` on structured text. -/
inductive Json where
  | null : Json
  | bool (b : Bool) : Json
  | num (n : Int) : Json
  | str (s : String) : Json
  | arr (elems : List Json) : Json
  | obj (fields : List (String × Json)) : Json

/-- Field lookup on a JSON value: `body["k"]` / `'k' in body`.  Only
objects have named fields (`'k' in someArray` is false for JS arrays). -/
def Json.getField : Json → String → Option Json
  | .obj fields, k => fields.lookup k
  | _, _ => none

/-- A JSON-RPC id after validation: `z.union([z.string(), z.number()])`. -/
inductive RequestId where
  | str (s : String) : RequestId
  | num (n : Int) : RequestId
deriving DecidableEq, Repr

/-- Inject a validated id back into JSON. -/
def RequestId.toJson : RequestId → Json
  | .str s => .str s
  | .num n => .num n

/-- Read an id from a raw JSON value; `none` when the value is neither a
string nor a number (the zod union fails). -/
def parseRequestId : Json → Option RequestId
  | .str s => some (.str s)
  | .num n => some (.num n)
  | _ => none

/-- `BaseRequest` (protocol.ts): the output of `baseRequestSchema.parse`.
`jsonrpc` is constrained to the literal "2.0" so it is not stored. -/
structure BaseRequest where
  id : RequestId
  method : String
  params : Option Json

/-- An `Error` object thrown with an attached numeric `code`
(`ProtocolHandler.createError` / `MCPServerManager.createError`). -/
structure MCPError where
  code : Int
  message : String
deriving DecidableEq, Repr

/-- The error thrown by `parseMessage` for any parse/shape failure. -/
def parseFailureError : MCPError :=
  ⟨-32700, "Failed to parse JSON-RPC message"⟩

/-- The error thrown by `validateRequest` when schema validation fails. -/
def invalidRequestError : MCPError :=
  ⟨-32600, "Invalid request format"⟩

/-- The error thrown by `ensureInitialized` before `initialize`. -/
def notInitializedError : MCPError :=
  ⟨-32600, "Server not initialized. Call initialize first."⟩

/-- `createMethodNotFoundError`: code -32601 with a prefixed message. -/
def methodNotFoundError (m : String) : MCPError :=
  ⟨-32601, "Method not found: " ++ m⟩

/-- The `z.literal("2.0")` check on the `jsonrpc` field. -/
def isVersionMarker : Option Json → Bool
  | some (.str s) => s == "2.0"
  | _ => false

/-- The `z.string()` check on the `method` field. -/
def getStringField : Option Json → Option String
  | some (.str s) => some s
  | _ => none

/-- The `z.record(z.unknown()).optional()` check on the `params` field:
absent is fine, present must be an object. -/
def checkParamsField : Option Json → Option (Option Json)
  | none => some none
  | some (.obj fields) => some (some (.obj fields))
  | some _ => none

/-- `ProtocolHandler.parseMessage`: `JSON.parse` (already done — the
input is the JSON tree) followed by `baseRequestSchema.parse`.  The
envelope requires `jsonrpc = "2.0"`, a string-or-number `id`, a string
`method`, and `params` absent or an object (`z.record(z.unknown())`).
Any failure is wrapped as a single PARSE_ERROR. -/
def parseMessage (j : Json) : Except MCPError BaseRequest :=
  if isVersionMarker (j.getField "jsonrpc") then
    match (j.getField "id").bind parseRequestId,
          getStringField (j.getField "method"),
          checkParamsField (j.getField "params") with
    | some rid, some m, some ps => .ok ⟨rid, m, ps⟩
    | _, _, _ => .error parseFailureError
  else .error parseFailureError

/-- `initializeRequestSchema` params check: required object with a string
`protocolVersion`, optional object `capabilities`, optional `clientInfo`
object with string `name` and string `version`. -/
def validInitializeParams : Option Json → Bool
  | some (.obj fields) =>
      (match fields.lookup "protocolVersion" with
       | some (.str _) => true
       | _ => false)
      && (match fields.lookup "capabilities" with
          | none => true
          | some (.obj _) => true
          | _ => false)
      && (match fields.lookup "clientInfo" with
          | none => true
          | some (.obj info) =>
              (match info.lookup "name" with
               | some (.str _) => true
               | _ => false)
              && (match info.lookup "version" with
                  | some (.str _) => true
                  | _ => false)
          | _ => false)
  | _ => false

/-- `toolsListRequestSchema` params check: `z.object(\x7b\x7d).optional()`
accepts an absent params or any object (unknown keys are stripped). -/
def validToolsListParams : Option Json → Bool
  | none => true
  | some (.obj _) => true
  | _ => false

/-- `toolsCallRequestSchema` params check: required object with a string
`name` and an optional object `arguments`. -/
def validToolsCallParams : Option Json → Bool
  | some (.obj fields) =>
      (match fields.lookup "name" with
       | some (.str _) => true
       | _ => false)
      && (match fields.lookup "arguments" with
          | none => true
          | some (.obj _) => true
          | _ => false)
  | _ => false

/-- The `name` field of validated tools/call params. -/
def toolName : Option Json → String
  | some p =>
      match p.getField "name" with
      | some (.str n) => n
      | _ => ""
  | none => ""

/-- Injected configuration values (config.ts): only the server identity
reaches the protocol core. -/
structure Config where
  serverName : String
  version : String
deriving DecidableEq, Repr

/-- The session state of `MCPServerManager`: the `initialized` flag. -/
structure SessionState where
  initialized : Bool
deriving DecidableEq, Repr

/-- Field initializer `private initialized: boolean = false`. -/
def initialState : SessionState := ⟨false⟩

/-- Result of a successful `handleInitialize`. -/
def initializeResult (cfg : Config) : Json :=
  .obj [("protocolVersion", .str "1.0.0"),
        ("serverInfo", .obj [("name", .str cfg.serverName),
                             ("version", .str cfg.version)]),
        ("capabilities", .obj [("tools", .obj [])])]

/-- Result of a successful `handleToolsList` (no tools registered yet). -/
def toolsListResult : Json := .obj [("tools", .arr [])]

/-- Result of `handlePing` at clock reading `now`. -/
def pingResult (now : String) : Json :=
  .obj [("status", .str "pong"), ("timestamp", .str now)]

/-- `MCPServerManager.handleRequest`: dispatch on the method string.
Returns the thrown-or-returned outcome together with the session state
after the call.  `now` is the ISO rendering of the current time. -/
def handleRequest (cfg : Config) (s : SessionState) (req : BaseRequest)
    (now : String) : Except MCPError Json × SessionState :=
  if req.method = "initialize" then
    if validInitializeParams req.params then
      (.ok (initializeResult cfg), { s with initialized := true })
    else
      (.error invalidRequestError, s)
  else if req.method = "tools/list" then
    if s.initialized = false then
      (.error notInitializedError, s)
    else if validToolsListParams req.params then
      (.ok toolsListResult, s)
    else
      (.error invalidRequestError, s)
  else if req.method = "tools/call" then
    if s.initialized = false then
      (.error notInitializedError, s)
    else if validToolsCallParams req.params then
      (.error (methodNotFoundError ("Tool not found: " ++ toolName req.params)), s)
    else
      (.error invalidRequestError, s)
  else if req.method = "ping" then
    (.ok (pingResult now), s)
  else
    (.error (methodNotFoundError req.method), s)

/-- Escape one character the way `JSON.stringify` renders it inside a
string literal. -/
def escapeChar (c : Char) : String :=
  if c = '"' then "\\\""
  else if c = '\\' then "\\\\"
  else if c = '\n' then "\\n"
  else if c = '\r' then "\\r"
  else if c = '\t' then "\\t"
  else if c.toNat < 32 then
    let digits := "0123456789abcdef"
    "\\u00" ++ (digits.toList.getD (c.toNat / 16) '0').toString
            ++ (digits.toList.getD (c.toNat % 16) '0').toString
  else c.toString

/-- `JSON.stringify` of a string value. -/
def escapeString (s : String) : String :=
  "\"" ++ String.join (s.toList.map escapeChar) ++ "\""

mutual

/-- `JSON.stringify` on a JSON tree. -/
def Json.serialize : Json → String
  | .null => "null"
  | .bool true => "true"
  | .bool false => "false"
  | .num n => toString n
  | .str s => escapeString s
  | .arr elems => "[" ++ serializeElems elems ++ "]"
  | .obj fields => "\x7b" ++ serializeFields fields ++ "\x7d"

/-- Comma-separated serialization of array elements. -/
def serializeElems : List Json → String
  | [] => ""
  | [x] => x.serialize
  | x :: y :: rest => x.serialize ++ "," ++ serializeElems (y :: rest)

/-- Comma-separated serialization of object entries. -/
def serializeFields : List (String × Json) → String
  | [] => ""
  | [(k, v)] => escapeString k ++ ":" ++ v.serialize
  | (k, v) :: e :: rest =>
      escapeString k ++ ":" ++ v.serialize ++ "," ++ serializeFields (e :: rest)

end

/-- `JSON.stringify` applied to the object `baseRequestSchema.parse`
returns for a request: keys in schema order, `params` omitted when
absent (JSON.stringify drops `undefined` fields). -/
def serializeRequest (r : BaseRequest) : Json :=
  .obj (("jsonrpc", Json.str "2.0") :: ("id", r.id.toJson) ::
        ("method", Json.str r.method) ::
        (match r.params with
         | some p => [("params", p)]
         | none => []))

/-- `ProtocolHandler.createSuccessResponse` rendered as the JSON body
sent by `res.json(response)`. -/
def successEnvelope (id : Json) (result : Json) : Json :=
  .obj [("jsonrpc", .str "2.0"), ("id", id), ("result", result)]

/-- `ProtocolHandler.createErrorResponse` rendered as the JSON body sent
by `res.status(500).json(errorResponse)` (its optional `data` field — a
stack trace — is not modelled). -/
def errorEnvelope (id : Json) (code : Int) (message : String) : Json :=
  .obj [("jsonrpc", .str "2.0"), ("id", id),
        ("error", .obj [("code", .num code), ("message", .str message)])]

/-- The request body as it reaches the `/mcp` route:
`unparseable` — `express.json()` could not parse the raw text, so the
route never runs and the error-handling middleware answers;
`absent` — `req.body` is falsy in the route;
`parsed` — the parsed JSON tree in `req.body`. -/
inductive RawBody where
  | unparseable (errMsg : String) : RawBody
  | absent : RawBody
  | parsed (j : Json) : RawBody

/-- An HTTP response: numeric status plus the JSON body. -/
structure HttpResponse where
  status : Nat
  body : Json

/-- The best-effort id recovery of the `/mcp` catch block: read
`req.body.id` whenever `'id' in req.body` (only objects have named
fields), then `id ?? 0` — `null` (and an absent field) falls back to the
sentinel 0. -/
def recoverId : Option Json → Json
  | some j =>
      match j.getField "id" with
      | some .null => .num 0
      | some v => v
      | none => .num 0
  | none => .num 0

/-- The `POST /mcp` pipeline of `HTTPTransport.setupRoutes`, with
`MCPServerManager.handleRequest` installed as the request handler (the
wiring `setupHandlers` performs at construction).  For an unparseable
body the JSON middleware's failure lands in the catch-all error
middleware, which answers 500 with a generic (non-envelope) body. -/
def postMcp (cfg : Config) (s : SessionState) (raw : RawBody)
    (now : String) : HttpResponse × SessionState :=
  match raw with
  | .unparseable errMsg =>
      (⟨500, .obj [("error", .str "Internal server error"),
                   ("message", .str errMsg)]⟩, s)
  | .absent =>
      (⟨500, errorEnvelope (recoverId none) (-32603) "Request body is required"⟩, s)
  | .parsed j =>
      match parseMessage j with
      | .error e =>
          (⟨500, errorEnvelope (recoverId (some j)) e.code e.message⟩, s)
      | .ok req =>
          match handleRequest cfg s req now with
          | (.ok result, s') =>
              (⟨200, successEnvelope req.id.toJson result⟩, s')
          | (.error e, s') =>
              (⟨500, errorEnvelope (recoverId (some j)) e.code e.message⟩, s')

/-- An SSE client entry (transport.ts): registry key, everything written
to its response stream, whether `response.end()` was called, and the
`lastActivity` timestamp in epoch milliseconds. -/
structure SSEClient where
  id : String
  written : List String
  closed : Bool
  lastActivity : Int
deriving DecidableEq, Repr

/-- The transport's live-client registry (`sseClients: Map<string,
SSEClient>`), as its list of entries; Map keys are unique. -/
structure HTTPTransport where
  sseClients : List SSEClient
deriving DecidableEq, Repr

/-- The set (list) of registered client ids. -/
def HTTPTransport.clientIds (t : HTTPTransport) : List String :=
  t.sseClients.map (·.id)

/-- The SSE wire framing used by both send and broadcast. -/
def sseFrame (event : String) (data : Json) : String :=
  "event: " ++ event ++ "\ndata: " ++ data.serialize ++ "\n\n"

/-- `HTTPTransport.sendSSEMessage`: look the client up by id; if absent
return false untouched, else write one frame, stamp `lastActivity` with
the current time, and return true. -/
def sendSSEMessage (t : HTTPTransport) (clientId : String) (event : String)
    (data : Json) (now : Int) : Bool × HTTPTransport :=
  match t.sseClients.find? (fun c => c.id == clientId) with
  | none => (false, t)
  | some _ =>
      (true, ⟨t.sseClients.map fun c =>
        if c.id == clientId then
          { c with written := c.written ++ [sseFrame event data],
                   lastActivity := now }
        else c⟩)

/-- `HTTPTransport.broadcastSSEMessage`: write the same frame to every
registered client, stamping each client's `lastActivity`. -/
def broadcastSSEMessage (t : HTTPTransport) (event : String) (data : Json)
    (now : Int) : HTTPTransport :=
  ⟨t.sseClients.map fun c =>
    { c with written := c.written ++ [sseFrame event data],
             lastActivity := now }⟩

/-- The idle time in minutes computed by `cleanupInactiveClients`:
`(now.getTime() - client.lastActivity.getTime()) / 1000 / 60`, in exact
arithmetic. -/
def inactiveMinutes (c : SSEClient) (now : Int) : ℚ :=
  ((now - c.lastActivity : Int) : ℚ) / 1000 / 60

/-- The eviction test of `cleanupInactiveClients`:
`inactiveMinutes > maxInactiveMinutes` (strict). -/
def isStale (c : SSEClient) (maxInactiveMinutes : ℚ) (now : Int) : Bool :=
  decide (inactiveMinutes c now > maxInactiveMinutes)

/-- `HTTPTransport.cleanupInactiveClients`: every stale client is
`response.end()`-ed and deleted from the registry; the rest are left
untouched.  Returns the surviving transport together with the evicted
clients (each with its stream closed), which the source only logs. -/
def cleanupInactiveClients (t : HTTPTransport) (maxInactiveMinutes : ℚ)
    (now : Int) : HTTPTransport × List SSEClient :=
  (⟨t.sseClients.filter fun c => !isStale c maxInactiveMinutes now⟩,
   (t.sseClients.filter fun c => isStale c maxInactiveMinutes now).map
     fun c => { c with closed := true })

/-- Boolean substring test used to state "message contains …". -/
def charsHavePrefix : List Char → List Char → Bool
  | [], _ => true
  | _ :: _, [] => false
  | a :: as, b :: bs => a == b && charsHavePrefix as bs

/-- `needle` occurs contiguously inside `hay`. -/
def charsContain (needle : List Char) : List Char → Bool
  | [] => charsHavePrefix needle []
  | b :: bs => charsHavePrefix needle (b :: bs) || charsContain needle bs

/-- `hay` contains `needle` as a substring. -/
def strContains (hay needle : String) : Bool :=
  charsContain needle.toList hay.toList

/-! Concrete values used to instantiate the verified properties. -/

/-- The default configuration values of config.ts. -/
def cfg0 : Config := ⟨"skyfi-mcp-server", "0.1.0"⟩

/-- A tools/call request with malformed params (missing `name`). -/
def malformedCallReq : BaseRequest := ⟨.num 1, "tools/call", some (.obj [])⟩

/-- A valid initialize request. -/
def initReq0 : BaseRequest :=
  ⟨.num 1, "initialize", some (.obj [("protocolVersion", .str "1.0.0")])⟩

/-- A valid tools/call request naming an unregistered tool. -/
def callUnknownReq : BaseRequest :=
  ⟨.num 2, "tools/call",
   some (.obj [("name", .str "unknown-tool"), ("arguments", .obj [])])⟩

/-- A ping request. -/
def pingReq0 : BaseRequest := ⟨.num 7, "ping", none⟩

/-- A request body whose id field is a boolean — present but neither a
string nor a number. -/
def badIdBody1 : Json :=
  .obj [("jsonrpc", .str "2.0"), ("id", .bool true), ("method", .str "ping")]

/-- A request body whose id field is an array — present but neither a
string nor a number. -/
def badIdBody2 : Json :=
  .obj [("jsonrpc", .str "2.0"), ("id", .arr []), ("method", .str "ping")]

/-- A well-formed request body with a string id. -/
def wellFormedBody0 : Json :=
  .obj [("jsonrpc", .str "2.0"), ("id", .str "a"), ("method", .str "tools/list")]

/-- A transport holding a single streaming client. -/
def transport0 : HTTPTransport := ⟨[⟨"client-1", [], false, 0⟩]⟩

/-- Reading a validated id back out of its JSON form is the identity. -/
theorem parseRequestId_toJson {v : Json} {rid : RequestId}
    (h : parseRequestId v = some rid) : rid.toJson = v := by
  cases v <;> simp [parseRequestId] at h <;> simp [← h, RequestId.toJson]

/-- A field passing the version-marker check is the literal "2.0". -/
theorem isVersionMarker_eq {o : Option Json} (h : isVersionMarker o = true) :
    o = some (.str "2.0") := by
  match o with
  | none => simp [isVersionMarker] at h
  | some .null | some (.bool _) | some (.num _)
  | some (.arr _) | some (.obj _) => simp [isVersionMarker] at h
  | some (.str s) =>
    simp [isVersionMarker] at h
    rw [h]

/-- A field passing the string check holds that string. -/
theorem getStringField_eq {o : Option Json} {s : String}
    (h : getStringField o = some s) : o = some (.str s) := by
  match o with
  | none => simp [getStringField] at h
  | some .null | some (.bool _) | some (.num _)
  | some (.arr _) | some (.obj _) => simp [getStringField] at h
  | some (.str v) =>
    simp [getStringField] at h
    rw [h]

/-- C1: a `tools/list` or `tools/call` dispatched while the session is
uninitialized gives an InvalidRequest-class error (code -32600) whose
message contains "not initialized", whatever the params are, and leaves
the state unchanged: the precondition is checked before schema
validation. -/
theorem uninitializedToolsRequestsReportNotInitialized
    (cfg : Config) (s : SessionState) (req : BaseRequest) (now : String)
    (hinit : s.initialized = false)
    (hm : req.method = "tools/list" ∨ req.method = "tools/call") :
    ∃ e, handleRequest cfg s req now = (.error e, s) ∧
      e.code = -32600 ∧ strContains e.message "not initialized" = true := by
  refine ⟨notInitializedError, ?_, rfl, by decide⟩
  rcases hm with hm | hm <;> simp [handleRequest, hm, hinit]

/-- C1 witness: an uninitialized `tools/call` whose params are malformed
(no `name` field) still reports "not initialized". -/
theorem uninitializedToolsRequestsReportNotInitialized_witness :
    ∃ e, handleRequest cfg0 ⟨false⟩ malformedCallReq "T" = (.error e, ⟨false⟩) ∧
      e.code = -32600 ∧ strContains e.message "not initialized" = true :=
  uninitializedToolsRequestsReportNotInitialized cfg0 ⟨false⟩ malformedCallReq "T"
    rfl (Or.inr rfl)

/-- C2: the `initialized` flag starts false; it is monotone (no request
resets it); an `initialize` whose params fail validation leaves the
state untouched; the flag becomes true only through a successful
`initialize`; and a second `initialize` after a first success still
succeeds and leaves the flag true. -/
theorem initializedFlagMonotone :
    initialState.initialized = false ∧
    (∀ cfg s req now, s.initialized = true →
       ((handleRequest cfg s req now).2).initialized = true) ∧
    (∀ cfg s req now, req.method = "initialize" →
       validInitializeParams req.params = false →
       (handleRequest cfg s req now).2 = s) ∧
    (∀ cfg s req now, ((handleRequest cfg s req now).2).initialized = true →
       s.initialized = true ∨
         (req.method = "initialize" ∧
          ∃ r, (handleRequest cfg s req now).1 = .ok r)) ∧
    (∀ cfg s req now, s.initialized = true → req.method = "initialize" →
       validInitializeParams req.params = true →
       handleRequest cfg s req now = (.ok (initializeResult cfg), ⟨true⟩)) := by
  refine ⟨rfl, ?_, ?_, ?_, ?_⟩
  · intro cfg s req now h
    simp only [handleRequest]
    split_ifs <;> simp [h]
  · intro cfg s req now hm hv
    simp [handleRequest, hm, hv]
  · intro cfg s req now
    simp only [handleRequest]
    split_ifs with h1 h2 <;> intro h <;> try exact Or.inl h
    exact Or.inr ⟨h1, initializeResult cfg, rfl⟩
  · intro cfg s req now hs hm hv
    have : s = ⟨true⟩ := by cases s; simp_all
    simp [handleRequest, hm, hv, this]

/-- C2 witness: a second `initialize` on an already-initialized session
still succeeds with the flag left true. -/
theorem initializedFlagMonotone_witness :
    handleRequest cfg0 ⟨true⟩ initReq0 "T" = (.ok (initializeResult cfg0), ⟨true⟩) :=
  initializedFlagMonotone.2.2.2.2 cfg0 ⟨true⟩ initReq0 "T" rfl rfl (by decide)

/-- C7: a ping request, in any session state, returns success with
`result.status = "pong"` and the current-clock timestamp, and leaves
the session state unchanged. -/
theorem pingAlwaysPongs (cfg : Config) (s : SessionState) (req : BaseRequest)
    (now : String) (hm : req.method = "ping") :
    handleRequest cfg s req now =
      (.ok (.obj [("status", .str "pong"), ("timestamp", .str now)]), s) := by
  simp [handleRequest, hm, pingResult]

/-- C7 witness: a concrete ping on an uninitialized session pongs. -/
theorem pingAlwaysPongs_witness :
    handleRequest cfg0 ⟨false⟩ pingReq0 "2025-01-01T00:00:00.000Z" =
      (.ok (.obj [("status", .str "pong"),
                  ("timestamp", .str "2025-01-01T00:00:00.000Z")]), ⟨false⟩) :=
  pingAlwaysPongs cfg0 ⟨false⟩ pingReq0 "2025-01-01T00:00:00.000Z" rfl

/-- C3 counterexample: for an initialized `tools/call` with valid params
naming the unknown tool "unknown-tool", the produced error message is
"Method not found: Tool not found: unknown-tool" — `handleToolsCall`
routes the text through `createMethodNotFoundError`, which prefixes
"Method not found: " — and that is not the claimed
"Tool not found: unknown-tool". -/
theorem toolNotFoundMessage_counterexample :
    (handleRequest cfg0 ⟨true⟩ callUnknownReq "T").1 =
      .error ⟨-32601, "Method not found: Tool not found: unknown-tool"⟩ ∧
    "Method not found: Tool not found: unknown-tool" ≠
      "Tool not found: unknown-tool" :=
  ⟨rfl, by decide⟩

/-- C3 amended: a MethodNotFound error (code -32601) arises exactly when
the method is not one of the four recognized ones, or when an
initialized `tools/call` with valid params names a capability (the
registry being empty, every name is unknown); in that case the message
is "Method not found: Tool not found: <name>" for the requested name,
which contains "Tool not found: <name>". -/
theorem methodNotFoundCharacterization
    (cfg : Config) (s : SessionState) (req : BaseRequest) (now : String) :
    ((∃ e, (handleRequest cfg s req now).1 = .error e ∧ e.code = -32601) ↔
      (¬(req.method = "initialize" ∨ req.method = "tools/list" ∨
         req.method = "tools/call" ∨ req.method = "ping") ∨
       (req.method = "tools/call" ∧ s.initialized = true ∧
        validToolsCallParams req.params = true))) ∧
    (req.method = "tools/call" → s.initialized = true →
     validToolsCallParams req.params = true →
     (handleRequest cfg s req now).1 =
       .error ⟨-32601,
         "Method not found: Tool not found: " ++ toolName req.params⟩) := by
  constructor
  · simp only [handleRequest]
    split_ifs with h1 h2 h3 h4 h5 h6 h7 h8 <;>
      simp_all [invalidRequestError, notInitializedError, methodNotFoundError,
        initializeResult, toolsListResult, pingResult]
  · intro h1 h2 h3
    simp [handleRequest, h1, h2, h3, methodNotFoundError]
    rw [← String.append_assoc]
    rfl

/-- C3 amended witness: an unrecognized method yields code -32601. -/
theorem methodNotFoundCharacterization_witness :
    ∃ e, (handleRequest cfg0 ⟨false⟩ ⟨.num 1, "bogus/method", none⟩ "T").1 =
      .error e ∧ e.code = -32601 :=
  (methodNotFoundCharacterization cfg0 ⟨false⟩ ⟨.num 1, "bogus/method", none⟩ "T").1.mpr
    (Or.inl (by decide))

/-- C4: on POST /mcp the status is always 200 or 500 — in particular the
status 400 is never produced — and a body that cannot be parsed as
structured text at all is answered with 500 (by the catch-all error
middleware), not with the 400 the spec and the repository's own
integration test (tests/integration/server.test.ts) expect. -/
theorem postMcpStatusCodes :
    (∀ cfg s raw now, (postMcp cfg s raw now).1.status = 200 ∨
       (postMcp cfg s raw now).1.status = 500) ∧
    (∀ cfg s errMsg now,
       (postMcp cfg s (.unparseable errMsg) now).1.status = 500) := by
  constructor
  · intro cfg s raw now
    cases raw with
    | unparseable errMsg => exact Or.inr rfl
    | absent => exact Or.inr rfl
    | parsed j =>
      simp only [postMcp]
      cases hp : parseMessage j with
      | error e => exact Or.inr rfl
      | ok req =>
        rcases hh : handleRequest cfg s req now with ⟨r, s2⟩
        cases r <;> simp [hh]
  · intro cfg s errMsg now
    rfl

/-- C5 counterexample: when the raw body's id field is present but not
structurally plausible (not a string or number), the error envelope
echoes that raw value instead of falling back to a sentinel: a boolean
id `true` comes back as `true` and an array id `[]` comes back as `[]` —
two different, non-string, non-number response ids, so no fixed sentinel
is used. -/
theorem errorIdRecovery_counterexample :
    (postMcp cfg0 ⟨false⟩ (.parsed badIdBody1) "T").1.status = 500 ∧
    (postMcp cfg0 ⟨false⟩ (.parsed badIdBody1) "T").1.body.getField "id" =
      some (.bool true) ∧
    (postMcp cfg0 ⟨false⟩ (.parsed badIdBody2) "T").1.body.getField "id" =
      some (.arr []) ∧
    Json.bool true ≠ Json.arr [] :=
  ⟨rfl, rfl, rfl, fun h => nomatch h⟩

/-- C5 amended: constructing the error response is total (the id
recovery is a total function), and on every failing parsed request the
error envelope's id equals the id field read from the raw body whenever
that field is present and non-null — whatever its JSON type — and the
sentinel 0 when the field is absent or null. -/
theorem errorEnvelopeIdRecovery
    (cfg : Config) (s : SessionState) (j : Json) (now : String)
    (hfail : (postMcp cfg s (.parsed j) now).1.status = 500) :
    (postMcp cfg s (.parsed j) now).1.body.getField "id" =
      some (match j.getField "id" with
            | some .null => .num 0
            | some v => v
            | none => .num 0) := by
  have hrec : (match j.getField "id" with
               | some Json.null => Json.num 0
               | some v => v
               | none => Json.num 0) = recoverId (some j) := rfl
  rw [hrec]
  rcases hp : parseMessage j with e | req
  · have hres : postMcp cfg s (.parsed j) now =
        (⟨500, errorEnvelope (recoverId (some j)) e.code e.message⟩, s) := by
      simp [postMcp, hp]
    rw [hres]
    rfl
  · rcases hh : handleRequest cfg s req now with ⟨r, s2⟩
    cases r with
    | ok v =>
      have hres : postMcp cfg s (.parsed j) now =
          (⟨200, successEnvelope req.id.toJson v⟩, s2) := by
        simp [postMcp, hp, hh]
      rw [hres] at hfail
      simp at hfail
    | error e =>
      have hres : postMcp cfg s (.parsed j) now =
          (⟨500, errorEnvelope (recoverId (some j)) e.code e.message⟩, s2) := by
        simp [postMcp, hp, hh]
      rw [hres]
      rfl

/-- C5 amended witness: a failing request whose body carries the
boolean id `true` gets that value echoed as the error envelope id. -/
theorem errorEnvelopeIdRecovery_witness :
    (postMcp cfg0 ⟨false⟩ (.parsed badIdBody1) "T").1.body.getField "id" =
      some (.bool true) :=
  errorEnvelopeIdRecovery cfg0 ⟨false⟩ badIdBody1 "T" rfl

/-- C6: for every raw body that parses as a well-formed request, the
serialized form of the parse result carries exactly the raw body's
envelope fields: the version marker, the id (the identical JSON value,
so numeric vs. string ids are preserved) and the method. -/
theorem parseSerializeRoundTrip (j : Json) (r : BaseRequest)
    (h : parseMessage j = .ok r) :
    (serializeRequest r).getField "jsonrpc" = j.getField "jsonrpc" ∧
    (serializeRequest r).getField "id" = j.getField "id" ∧
    (serializeRequest r).getField "method" = j.getField "method" := by
  unfold parseMessage at h
  split at h
  case isFalse => exact absurd h (by simp)
  case isTrue hver =>
    split at h
    case _ rid m ps hid hmethod hparams =>
      cases h
      refine ⟨?_, ?_, ?_⟩
      · rw [isVersionMarker_eq hver]; rfl
      · rcases hj : j.getField "id" with _ | idv
        · rw [hj] at hid; simp at hid
        · rw [hj] at hid
          rw [Option.some_bind'] at hid
          have hinv := parseRequestId_toJson hid
          show some rid.toJson = some idv
          rw [hinv]
      · rw [getStringField_eq hmethod]; rfl
    all_goals cases h

/-- C6 witness: a concrete well-formed body with a string id round-trips
with its envelope fields intact. -/
theorem parseSerializeRoundTrip_witness :
    (serializeRequest ⟨.str "a", "tools/list", none⟩).getField "jsonrpc" =
      wellFormedBody0.getField "jsonrpc" ∧
    (serializeRequest ⟨.str "a", "tools/list", none⟩).getField "id" =
      wellFormedBody0.getField "id" ∧
    (serializeRequest ⟨.str "a", "tools/list", none⟩).getField "method" =
      wellFormedBody0.getField "method" :=
  parseSerializeRoundTrip wellFormedBody0 ⟨.str "a", "tools/list", none⟩ rfl

/-- C8: `sendSSEMessage` returns true iff the client id is registered;
when it is, the target's stream gets exactly one more chunk, the frame
"event: <name>\ndata: <json>\n\n", every other client entry is left
as it was, and the registered id set is unchanged; when it is not, the
whole transport is returned untouched with false. -/
theorem sendSSEMessageSpec (t : HTTPTransport) (clientId event : String)
    (data : Json) (now : Int) :
    ((sendSSEMessage t clientId event data now).1 = true ↔
       clientId ∈ t.clientIds) ∧
    ((sendSSEMessage t clientId event data now).1 = false →
       (sendSSEMessage t clientId event data now).2 = t) ∧
    (∀ c ∈ t.sseClients, c.id ≠ clientId →
       c ∈ (sendSSEMessage t clientId event data now).2.sseClients) ∧
    (∀ c ∈ t.sseClients, c.id = clientId →
       { c with
         written := c.written ++
           ["event: " ++ event ++ "\ndata: " ++ data.serialize ++ "\n\n"],
         lastActivity := now }
         ∈ (sendSSEMessage t clientId event data now).2.sseClients) ∧
    ((sendSSEMessage t clientId event data now).2.clientIds = t.clientIds) := by
  rcases hf : t.sseClients.find? (fun c => c.id == clientId) with _ | c
  · have hnone : ∀ c ∈ t.sseClients, c.id ≠ clientId := by
      intro c hc
      have := List.find?_eq_none.mp hf c hc
      simpa using this
    refine ⟨?_, fun _ => by simp [sendSSEMessage, hf], ?_, ?_, ?_⟩
    · simp only [sendSSEMessage, hf]
      constructor
      · intro h; exact absurd h (by simp)
      · intro h
        rcases List.mem_map.mp h with ⟨c, hc, hid⟩
        exact absurd hid (hnone c hc)
    · intro c hc _
      simp [sendSSEMessage, hf, hc]
    · intro c hc hid
      exact absurd hid (hnone c hc)
    · simp [sendSSEMessage, hf]
  · have hmem : clientId ∈ t.clientIds := by
      have hcmem := List.mem_of_find?_eq_some hf
      have hcid : c.id = clientId := by
        have := List.find?_some hf
        simpa using this
      exact List.mem_map.mpr ⟨c, hcmem, hcid⟩
    refine ⟨by simp [sendSSEMessage, hf, hmem], ?_, ?_, ?_, ?_⟩
    · intro h
      simp [sendSSEMessage, hf] at h
    · intro x hx hxid
      simp only [sendSSEMessage, hf]
      have : (if x.id == clientId then
          { x with written := x.written ++ [sseFrame event data],
                   lastActivity := now } else x) = x := by
        simp [hxid]
      exact this ▸ List.mem_map_of_mem _ hx
    · intro x hx hxid
      simp only [sendSSEMessage, hf]
      have : (if x.id == clientId then
          { x with written := x.written ++ [sseFrame event data],
                   lastActivity := now } else x) =
          { x with
            written := x.written ++
              ["event: " ++ event ++ "\ndata: " ++ data.serialize ++ "\n\n"],
            lastActivity := now } := by
        simp [hxid, sseFrame]
      exact this ▸ List.mem_map_of_mem _ hx
    · simp only [sendSSEMessage, hf, HTTPTransport.clientIds, List.map_map]
      apply List.map_congr_left
      intro x _
      by_cases hxid : x.id = clientId <;> simp [hxid]

/-- C8 witness: sending to the lone registered client succeeds and its
stream holds exactly the framed message. -/
theorem sendSSEMessageSpec_witness :
    (sendSSEMessage transport0 "client-1" "ping" (.obj [("t", .str "x")]) 50).1 = true ∧
    (⟨"client-1", ["event: ping\ndata: \x7b\"t\":\"x\"\x7d\n\n"], false, 50⟩ : SSEClient)
      ∈ (sendSSEMessage transport0 "client-1" "ping" (.obj [("t", .str "x")]) 50).2.sseClients :=
  ⟨((sendSSEMessageSpec transport0 "client-1" "ping" (.obj [("t", .str "x")]) 50).1).mpr
      (by decide),
   (sendSSEMessageSpec transport0 "client-1" "ping" (.obj [("t", .str "x")]) 50).2.2.2.1
      ⟨"client-1", [], false, 0⟩ (by decide) rfl⟩

/-- C9: the cleanup sweep keeps exactly the registered clients whose
idle time `(now - lastActivity) / 1000 / 60` does not exceed the
threshold — each kept entry identical to before, so never written to or
closed — and the evicted list holds exactly the stale clients, each with
its connection closed. -/
theorem cleanupEvictsExactlyStaleClients (t : HTTPTransport)
    (maxInactiveMinutes : ℚ) (now : Int) : ∀ c : SSEClient,
    (c ∈ (cleanupInactiveClients t maxInactiveMinutes now).1.sseClients ↔
       c ∈ t.sseClients ∧ ¬(inactiveMinutes c now > maxInactiveMinutes)) ∧
    (c ∈ (cleanupInactiveClients t maxInactiveMinutes now).2 ↔
       ∃ c₀, c₀ ∈ t.sseClients ∧ inactiveMinutes c₀ now > maxInactiveMinutes ∧
         c = { c₀ with closed := true }) := by
  intro c
  constructor
  · simp [cleanupInactiveClients, List.mem_filter, isStale]
  · simp only [cleanupInactiveClients, List.mem_map, List.mem_filter, isStale,
      decide_eq_true_eq]
    constructor
    · rintro ⟨c₀, ⟨hc₀, hstale⟩, hch⟩
      exact ⟨c₀, hc₀, hstale, hch.symm⟩
    · rintro ⟨c₀, hc₀, hstale, hch⟩
      exact ⟨c₀, ⟨hc₀, hstale⟩, hch.symm⟩

/-- C9 witness: a client idle for an hour is evicted — closed and moved
out of the registry — by a sweep with a 30-minute threshold. -/
theorem cleanupEvictsExactlyStaleClients_witness :
    (⟨"client-1", [], true, 0⟩ : SSEClient) ∈
      (cleanupInactiveClients ⟨[⟨"client-1", [], false, 0⟩]⟩ 30 3600000).2 :=
  ((cleanupEvictsExactlyStaleClients ⟨[⟨"client-1", [], false, 0⟩]⟩ 30 3600000
      ⟨"client-1", [], true, 0⟩).2).mpr
    ⟨⟨"client-1", [], false, 0⟩, List.mem_singleton.mpr rfl,
     by norm_num [inactiveMinutes], rfl⟩

/-- C10: broadcast and targeted sends keep the registry's id set; every
written client's `lastActivity` becomes the write time; hence a client
written at `tSend` survives any cleanup sweep at `tSweep` whose
threshold is at least the elapsed idle minutes — in particular a client
refreshed by each keepalive ping is never evicted by a sweep whose
threshold exceeds the keepalive period. -/
theorem sseWritesRefreshActivity (t : HTTPTransport) (clientId event : String)
    (data : Json) (tSend : Int) :
    ((broadcastSSEMessage t event data tSend).clientIds = t.clientIds) ∧
    (∀ c ∈ (broadcastSSEMessage t event data tSend).sseClients,
       c.lastActivity = tSend) ∧
    ((sendSSEMessage t clientId event data tSend).2.clientIds = t.clientIds) ∧
    (∀ maxInactiveMinutes : ℚ, ∀ tSweep : Int, clientId ∈ t.clientIds →
       ((tSweep - tSend : Int) : ℚ) / 1000 / 60 ≤ maxInactiveMinutes →
       clientId ∈ (cleanupInactiveClients
         (sendSSEMessage t clientId event data tSend).2
         maxInactiveMinutes tSweep).1.clientIds) := by
  refine ⟨?_, ?_, ?_, ?_⟩
  · simp only [broadcastSSEMessage, HTTPTransport.clientIds, List.map_map]
    apply List.map_congr_left
    intro x _
    rfl
  · intro c hc
    rcases List.mem_map.mp hc with ⟨x, _, hx⟩
    rw [← hx]
  · exact (sendSSEMessageSpec t clientId event data tSend).2.2.2.2
  · intro maxInactiveMinutes tSweep hmem hfresh
    rcases List.mem_map.mp hmem with ⟨c, hc, hcid⟩
    have hupd := (sendSSEMessageSpec t clientId event data tSend).2.2.2.1 c hc hcid
    set c' : SSEClient :=
      { c with
        written := c.written ++
          ["event: " ++ event ++ "\ndata: " ++ data.serialize ++ "\n\n"],
        lastActivity := tSend } with hc'
    have hkeep : c' ∈ (cleanupInactiveClients
        (sendSSEMessage t clientId event data tSend).2
        maxInactiveMinutes tSweep).1.sseClients := by
      apply ((cleanupEvictsExactlyStaleClients _ maxInactiveMinutes tSweep c').1).mpr
      refine ⟨hupd, ?_⟩
      simp only [inactiveMinutes, hc', not_lt]
      exact hfresh
    exact List.mem_map.mpr ⟨c', hkeep, hcid⟩

/-- C10 witness: a client written at time 100 is still registered after
a sweep at time 200 with a 30-minute threshold. -/
theorem sseWritesRefreshActivity_witness :
    "client-1" ∈ (cleanupInactiveClients
      (sendSSEMessage transport0 "client-1" "ping" .null 100).2
      30 200).1.clientIds :=
  (sseWritesRefreshActivity transport0 "client-1" "ping" .null 100).2.2.2
    30 200 (by decide) (by norm_num)

end SkyFi
